import Mathlib

/-!
Verification development for the AI-BLOG-WRITER repository (`utils.py`, `app.py`).

The definitions below are a shallow embedding of the pure content of the
program: text post-processing (`process_internal_links`), request
construction (`generate_image`), retry-with-backoff behaviour of the
decorated generation functions, credential resolution, and the WordPress
export flow.  External collaborators (the OpenAI client, HTTP transport,
the WordPress XML-RPC client, PIL) are modelled as explicit parameters;
in-place image mutation is modelled by a heap of images.
-/

/-! ## Link normalizer: `process_internal_links` (utils.py lines 36-47)

The source is `re.sub(r'\[INTERNAL_LINK:\s*(.*?)\]', r'[\1]', content)`.
-/

/-- Whitespace characters matched by the regex class `\s` (ASCII range). -/
def isSpace (c : Char) : Bool :=
  c == ' ' || c == '\t' || c == '\n' || c == '\r' || c == '\x0b' || c == '\x0c'

/-- The literal head `[INTERNAL_LINK:` of the substituted pattern. -/
def markerPat : List Char := "[INTERNAL_LINK:".toList

/-- The bare substring `INTERNAL_LINK:` (the prefix the normalizer is meant
to remove). -/
def ilStr : List Char := "INTERNAL_LINK:".toList

/-- The lazy group-and-close `(.*?)\]`: captures the shortest run of
non-newline characters up to a `]` (in Python, `.` does not match a
newline).  Returns the captured topic and the remainder after the `]`;
`none` when no `]` is reachable without crossing a newline. -/
def findTopic : List Char → Option (List Char × List Char)
  | [] => none
  | c :: cs =>
    if c = ']' then some ([], cs)
    else if c = '\n' then none
    else
      match findTopic cs with
      | some (t, r) => some (c :: t, r)
      | none => none

/-- One left-to-right pass of
`re.sub(r'\[INTERNAL_LINK:\s*(.*?)\]', r'[\1]', content)`: at each
position, if the literal head matches, consume the (greedy) `\s*` run and
the lazy topic; on a match emit `[topic]` and continue after the matched
span, otherwise copy one character and move on.  The fuel argument bounds
the recursion; `subLinks` supplies enough fuel for the whole input. -/
def scanAux : Nat → List Char → List Char
  | _, [] => []
  | 0, cs => cs
  | fuel + 1, c :: cs =>
    if markerPat.isPrefixOf (c :: cs) then
      match findTopic (((c :: cs).drop markerPat.length).dropWhile isSpace) with
      | some (topic, rem) => '[' :: (topic ++ ']' :: scanAux fuel rem)
      | none => c :: scanAux fuel cs
    else c :: scanAux fuel cs

/-- The full substitution pass on a character list. -/
def subLinks (cs : List Char) : List Char := scanAux cs.length cs

/-- `process_internal_links` from `utils.py`: rewrite every
`[INTERNAL_LINK: topic]` marker to `[topic]`. -/
def process_internal_links (content : String) : String := ⟨subLinks content.toList⟩

/-- Does `pat` occur as a contiguous substring of `cs`? -/
def hasSub (pat : List Char) : List Char → Bool
  | [] => pat.isPrefixOf []
  | c :: cs => pat.isPrefixOf (c :: cs) || hasSub pat cs

/-- Does the text start with a non-whitespace character (or nothing)?
Used to state when the greedy `\s*` stops exactly at a topic. -/
def headNotSpace : List Char → Bool
  | [] => true
  | t :: _ => !isSpace t

/-- String form of `hasSub`. -/
def hasSubstr (pat s : String) : Bool := hasSub pat.toList s.toList

/-! ### Spec-side normalizer (for refinement comparison)

`normalize_spec` follows the specification's words literally: "finds every
occurrence of the literal pattern `[INTERNAL_LINK: <topic>]` (topic = the
shortest run of characters up to the closing bracket) and replaces it with
`[<topic>]`".  The literal part is `[INTERNAL_LINK: ` exactly as written
(with its single space), and the topic may be any characters. -/

/-- The literal pattern head `[INTERNAL_LINK: ` exactly as the spec writes
it, including the single space. -/
def specLit : List Char := "[INTERNAL_LINK: ".toList

/-- Shortest run of arbitrary characters up to a closing `]`, as the spec
words describe the topic (no newline restriction). -/
def findTopicSpec : List Char → Option (List Char × List Char)
  | [] => none
  | c :: cs =>
    if c = ']' then some ([], cs)
    else
      match findTopicSpec cs with
      | some (t, r) => some (c :: t, r)
      | none => none

/-- Scanner for `normalize_spec`, analogous to `scanAux`. -/
def normSpecAux : Nat → List Char → List Char
  | _, [] => []
  | 0, cs => cs
  | fuel + 1, c :: cs =>
    if specLit.isPrefixOf (c :: cs) then
      match findTopicSpec ((c :: cs).drop specLit.length) with
      | some (topic, rem) => '[' :: (topic ++ ']' :: normSpecAux fuel rem)
      | none => c :: normSpecAux fuel cs
    else c :: normSpecAux fuel cs

/-- The Link Normalizer exactly as the specification words it. -/
def normalize_spec (content : String) : String :=
  ⟨normSpecAux content.toList.length content.toList⟩

/-! ## Error model

The program defines a single exception class, `APIError` (utils.py lines
32-34); every failure in `utils.py` is raised as an `APIError` carrying a
message.  An error value therefore records the exception class name and
the message, so that "distinguishable by kind" is expressible. -/

/-- A raised application exception: its Python class name and message. -/
structure AppError where
  kind : String
  msg : String
deriving DecidableEq, Repr

/-- Build the one exception the program ever raises. -/
def apiError (msg : String) : AppError := ⟨"APIError", msg⟩

deriving instance DecidableEq for Except

/-! ## Retry decoration

`generate_blog_content` and `generate_image` are decorated with
`@retry(APIError, tries=3, delay=2, backoff=2)`: up to 3 attempts, a sleep
of 2 time units after the first failure and 4 after the second, the last
failure propagating.  The body of the decorated function is modelled as a
function of the attempt index; the outcome records the result, the number
of attempts made and the sequence of sleeps. -/

/-- Outcome of a retried call. -/
structure RetryOutcome (α : Type) where
  result : Except AppError α
  attempts : Nat
  delays : List Nat
deriving Repr

/-- The retry driver: `tries` remaining attempts, current `delay`, and the
index `k` of the next attempt.  Mirrors the `retry` decoration with
`tries=3, delay=2, backoff=2` when started at `(3, 2, 0)`. -/
def retryGo {α : Type} (body : Nat → Except AppError α) :
    Nat → Nat → Nat → RetryOutcome α
  | 0, _, k => { result := body k, attempts := k + 1, delays := [] }
  | 1, _, k => { result := body k, attempts := k + 1, delays := [] }
  | n + 2, d, k =>
    match body k with
    | .ok v => { result := .ok v, attempts := k + 1, delays := [] }
    | .error _ =>
      let r := retryGo body (n + 1) (d * 2) (k + 1)
      { result := r.result, attempts := r.attempts, delays := d :: r.delays }

/-! ## Content generator: `generate_blog_content` (utils.py lines 49-101)

The network call is a parameter: `api k` is what
`client.chat.completions.create(...).choices[0].message.content` yields on
attempt `k` (`.ok raw` for a response text, `.error e` for any raised
exception).  The body catches every exception and re-raises
`APIError("Error generating blog content: " + str(e))`; on success it
returns `process_internal_links(raw)`. -/

/-- One attempt of the body of `generate_blog_content`. -/
def genBody (api : Nat → Except String String) (k : Nat) :
    Except AppError String :=
  match api k with
  | .ok raw => .ok (process_internal_links raw)
  | .error e => .error (apiError ("Error generating blog content: " ++ e))

/-- `generate_blog_content`, with its `@retry(APIError, tries=3, delay=2,
backoff=2)` decoration. -/
def generate_blog_content (api : Nat → Except String String) :
    RetryOutcome String :=
  retryGo (genBody api) 3 2 0

/-! ## Image generator: `generate_image` (utils.py lines 103-131) -/

/-- The request `generate_image` sends to `client.images.generate`. -/
structure ImageRequest where
  model : String
  prompt : String
  size : String
  quality : String
  n : Nat
deriving DecidableEq, Repr

/-- The request constructed by `generate_image` for a given prompt. -/
def imageRequest (prompt : String) : ImageRequest :=
  { model := "dall-e-3", prompt := prompt, size := "1792x1024"
    quality := "standard", n := 1 }

/-- Split a character list at each `x` separator. -/
def splitOnX : List Char → List (List Char)
  | [] => [[]]
  | c :: cs =>
    if c = 'x' then [] :: splitOnX cs
    else
      match splitOnX cs with
      | [] => [[c]]
      | p :: ps => (c :: p) :: ps

/-- Is a size string of the form `WxH` square (width equal to height)? -/
def isSquareSize (s : String) : Bool :=
  match splitOnX s.toList with
  | [w, h] => w == h
  | _ => false

/-- A decoded raster image (PIL.Image): its pixel dimensions, which are
what `thumbnail` mutates. -/
structure PILImage where
  width : Nat
  height : Nat
deriving DecidableEq, Repr

instance : Inhabited PILImage := ⟨⟨0, 0⟩⟩

/-- One attempt of the body of `generate_image`: invoke the API with the
constructed request (any exception becomes
`APIError("Error generating image: ...")`); on success fetch the returned
URL; a non-200 status raises `APIError("Failed to download image: ...")`
which the enclosing handler wraps; `Image.open` either decodes an image or
raises, which is likewise wrapped.  The `Optional[Image.Image]` return
annotation is modelled by the `Option` in the result type. -/
def imgBody (prompt : String) (api : ImageRequest → Nat → Except String String)
    (download : String → Nat × List Nat)
    (decode : List Nat → Except String PILImage) (k : Nat) :
    Except AppError (Option PILImage) :=
  match api (imageRequest prompt) k with
  | .error e => .error (apiError ("Error generating image: " ++ e))
  | .ok url =>
    let (status, bytes) := download url
    if status = 200 then
      match decode bytes with
      | .ok img => .ok (some img)
      | .error e => .error (apiError ("Error generating image: " ++ e))
    else
      .error (apiError ("Error generating image: Failed to download image: "
        ++ toString status))

/-- `generate_image`, with its retry decoration. -/
def generate_image (prompt : String)
    (api : ImageRequest → Nat → Except String String)
    (download : String → Nat × List Nat)
    (decode : List Nat → Except String PILImage) :
    RetryOutcome (Option PILImage) :=
  retryGo (imgBody prompt api download decode) 3 2 0

/-! ## Credential resolvers (utils.py lines 19-27, 145-197)

The secrets layer is modelled as `Option`-valued lookups: `none` when the
section or key is missing, `some v` for a stored string.  Environment
variables are likewise `Option String`.  Each resolver result is paired
with a flag recording whether the environment variable was consulted. -/

/-- `get_openai_api_key`: if the secrets hold `api_keys.openai` and it is
not the placeholder, return it; otherwise fall back to the environment. -/
def get_openai_api_key (secrets env : Option String) : Option String × Bool :=
  match secrets with
  | some k => if k ≠ "YOUR_OPENAI_API_KEY" then (some k, false) else (env, true)
  | none => (env, true)

/-- The shared shape of the Notion/WordPress per-field resolution: take the
secrets value, null it out if it equals the placeholder, then fall back to
the environment when the result is falsy (`None` or the empty string). -/
def secretOrEnv (raw : Option String) (placeholder : String)
    (env : Option String) : Option String × Bool :=
  let v : Option String :=
    match raw with
    | some s => if s = placeholder then none else some s
    | none => none
  match v with
  | some s => if s = "" then (env, true) else (some s, false)
  | none => (env, true)

/-- `get_notion_credentials`: the secrets layer yields the `notion` section
(absent, or a pair of optional `api_key` / `database_id` entries). -/
def get_notion_credentials (secrets : Option (Option String × Option String))
    (envKey envDb : Option String) :
    (Option String × Bool) × (Option String × Bool) :=
  let rawK := match secrets with | some (k, _) => k | none => none
  let rawD := match secrets with | some (_, d) => d | none => none
  (secretOrEnv rawK "YOUR_NOTION_API_KEY" envKey,
   secretOrEnv rawD "YOUR_NOTION_DATABASE_ID" envDb)

/-- `get_wordpress_credentials`: url, username and password, each resolved
with its own placeholder. -/
def get_wordpress_credentials
    (secrets : Option (Option String × Option String × Option String))
    (envUrl envUser envPass : Option String) :
    Option String × Option String × Option String :=
  let rawU := match secrets with | some (u, _, _) => u | none => none
  let rawN := match secrets with | some (_, n, _) => n | none => none
  let rawP := match secrets with | some (_, _, p) => p | none => none
  ((secretOrEnv rawU "YOUR_WORDPRESS_URL" envUrl).1,
   (secretOrEnv rawN "YOUR_WORDPRESS_USERNAME" envUser).1,
   (secretOrEnv rawP "YOUR_WORDPRESS_APPLICATION_PASSWORD" envPass).1)

/-! ## WordPress exporter: `save_to_wordpress` (utils.py lines 265-330)

PIL images are mutable objects, so the image argument is a reference into
a heap (a list of `PILImage`); `image.copy()` allocates a new cell and
`optimized_image.thumbnail((1024, 1024))` mutates the copy's cell in
place.  The media-upload call is a function of the attempt index, the
post-creation call a single `Except`; the outcome records the calls
actually issued. -/

/-- `PIL.Image.thumbnail((mW, mH))`: shrink in place to fit within the
bounding box, preserving aspect ratio; images already within the box are
left untouched (thumbnail never enlarges). -/
def pilThumbnail (img : PILImage) (mW mH : Nat) : PILImage :=
  if img.width ≤ mW && img.height ≤ mH then img
  else if img.width * mH ≥ img.height * mW then
    ⟨mW, img.height * mW / img.width⟩
  else
    ⟨img.width * mH / img.height, mH⟩

/-- `if not x` on an optional string: falsy when absent or empty. -/
def falsy : Option String → Bool
  | none => true
  | some s => s == ""

/-- The upload loop `for attempt in range(3)`: try the media upload up to
three times; the third failure is raised as
`APIError("Error uploading image to WordPress: ...")`.  Returns the media
id or the error message, with the number of attempts made. -/
def uploadLoop (upload : Nat → Except String Nat) : Except String Nat × Nat :=
  match upload 0 with
  | .ok i => (.ok i, 1)
  | .error _ =>
    match upload 1 with
    | .ok i => (.ok i, 2)
    | .error _ =>
      match upload 2 with
      | .ok i => (.ok i, 3)
      | .error e => (.error ("Error uploading image to WordPress: " ++ e), 3)

/-- Observable outcome of `save_to_wordpress`. -/
structure WPOutcome where
  result : Except AppError String
  uploadAttempts : Nat
  postCalls : Nat
  thumbnail : Option Nat
  postStatus : Option String
deriving Repr

/-- `save_to_wordpress`: resolve credentials (fail fast when any is falsy),
prepare and upload the image when one is supplied (on a copy of the
caller's image), then create the draft post.  Every failure is re-raised
as `APIError("Error saving to WordPress: " + str(e))`.  Returns the
outcome and the final image heap. -/
def save_to_wordpress (wpUrl wpUser wpPass : Option String)
    (heap : List PILImage) (imgRef : Option Nat)
    (upload : Nat → Except String Nat) (newPost : Except String Nat) :
    WPOutcome × List PILImage :=
  if falsy wpUrl || falsy wpUser || falsy wpPass then
    ({ result := .error (apiError ("Error saving to WordPress: " ++
         "WordPress credentials not found in Streamlit secrets or environment variables"))
       uploadAttempts := 0, postCalls := 0, thumbnail := none
       postStatus := none }, heap)
  else
    let url := wpUrl.getD ""
    match imgRef with
    | some ref =>
      let copyRef := heap.length
      let heap1 := heap ++ [heap.getD ref default]
      let heap2 := heap1.set copyRef (pilThumbnail (heap1.getD copyRef default) 1024 1024)
      match uploadLoop upload with
      | (.ok mid, n) =>
        match newPost with
        | .ok pid =>
          ({ result := .ok (url ++ "/?p=" ++ toString pid), uploadAttempts := n
             postCalls := 1, thumbnail := some mid, postStatus := some "draft" }, heap2)
        | .error e =>
          ({ result := .error (apiError ("Error saving to WordPress: " ++ e))
             uploadAttempts := n, postCalls := 1, thumbnail := some mid
             postStatus := some "draft" }, heap2)
      | (.error e, n) =>
        ({ result := .error (apiError ("Error saving to WordPress: " ++ e))
           uploadAttempts := n, postCalls := 0, thumbnail := none
           postStatus := none }, heap2)
    | none =>
      match newPost with
      | .ok pid =>
        ({ result := .ok (url ++ "/?p=" ++ toString pid), uploadAttempts := 0
           postCalls := 1, thumbnail := none, postStatus := some "draft" }, heap)
      | .error e =>
        ({ result := .error (apiError ("Error saving to WordPress: " ++ e))
           uploadAttempts := 0, postCalls := 1, thumbnail := none
           postStatus := some "draft" }, heap)

/-- The exception class of a result's error, when there is one: what a
caller's `except SomeClass:` discriminates on. -/
def errKind : Except AppError String → Option String
  | .error e => some e.kind
  | .ok _ => none

/-! ## Well-formed generation responses

For the corrected form of the end-to-end "no `INTERNAL_LINK:` remains"
property: a response is segmented into marker-free stretches and
well-formed markers. -/

/-- A generation response split into literal stretches and markers:
`seg s ws topic rest` stands for the text
`s ++ "[INTERNAL_LINK:" ++ ws ++ topic ++ "]" ++ rest`. -/
inductive Resp : Type
  | last : List Char → Resp
  | seg : List Char → List Char → List Char → Resp → Resp

/-- The text of a segmented response. -/
def Resp.text : Resp → List Char
  | .last s => s
  | .seg s ws topic rest => s ++ markerPat ++ ws ++ topic ++ ']' :: rest.text

/-- Well-formedness: literal stretches contain no `INTERNAL_LINK:`, marker
whitespace is whitespace, topics contain no `]`, no newline, do not start
with whitespace, and contain no `INTERNAL_LINK:` themselves. -/
def Resp.wf : Resp → Bool
  | .last s => !hasSub ilStr s
  | .seg s ws topic rest =>
    !hasSub ilStr s && ws.all isSpace
      && topic.all (fun c => c != ']' && c != '\n')
      && headNotSpace topic
      && !hasSub ilStr topic && rest.wf

/-! ## Helper lemmas about substrings and prefixes -/

lemma markerPat_cons : markerPat = '[' :: ilStr := by decide

lemma markerPat_length : markerPat.length = 15 := by decide

lemma isPrefixOf_self_append (l r : List Char) : l.isPrefixOf (l ++ r) = true := by
  induction l with
  | nil => cases r <;> rfl
  | cons a t ih => simp [List.isPrefixOf, ih]

lemma prefix_of_append_of_le (pat s r : List Char)
    (h : pat.isPrefixOf (s ++ r) = true) (hle : pat.length ≤ s.length) :
    pat.isPrefixOf s = true := by
  induction pat generalizing s with
  | nil => cases s <;> rfl
  | cons p pt ih =>
    cases s with
    | nil => simp at hle
    | cons a s' =>
      simp only [List.cons_append, List.isPrefixOf, Bool.and_eq_true] at h ⊢
      exact ⟨h.1, ih s' h.2 (by simpa using hle)⟩

lemma prefix_drop_head (pat s : List Char) (c : Char) (r : List Char)
    (h : pat.isPrefixOf (s ++ c :: r) = true) (hlt : s.length < pat.length) :
    (pat.drop s.length).head? = some c := by
  induction s generalizing pat with
  | nil =>
    cases pat with
    | nil => simp at hlt
    | cons p pt =>
      simp only [List.nil_append, List.isPrefixOf, Bool.and_eq_true, beq_iff_eq] at h
      simp [h.1]
  | cons a s' ih =>
    cases pat with
    | nil => simp at hlt
    | cons p pt =>
      simp only [List.cons_append, List.isPrefixOf, Bool.and_eq_true] at h
      simpa using ih pt h.2 (by simpa using hlt)

lemma mem_of_prefix_over (pat s : List Char) (c : Char) (r : List Char)
    (h : pat.isPrefixOf (s ++ c :: r) = true) (hlt : s.length < pat.length) :
    c ∈ pat := by
  have hd := prefix_drop_head pat s c r h hlt
  have hmem : c ∈ pat.drop s.length := by
    cases hdrop : pat.drop s.length with
    | nil => rw [hdrop] at hd; simp at hd
    | cons x xs =>
      rw [hdrop] at hd
      simp only [List.head?_cons, Option.some.injEq] at hd
      exact hd ▸ List.mem_cons_self _ _
  exact (List.drop_sublist s.length pat).mem hmem

lemma isPrefixOf_hasSub (pat l : List Char) (h : pat.isPrefixOf l = true) :
    hasSub pat l = true := by
  cases l with
  | nil => simpa [hasSub] using h
  | cons a t => simp [hasSub, h]

lemma hasSub_cons_tail (pat : List Char) (a : Char) (t : List Char)
    (h : hasSub pat t = true) : hasSub pat (a :: t) = true := by
  simp [hasSub, h]

lemma hasSub_of_cons_pat (c : Char) (pat l : List Char)
    (h : hasSub (c :: pat) l = true) : hasSub pat l = true := by
  induction l with
  | nil => simp [hasSub, List.isPrefixOf] at h
  | cons a t ih =>
    simp only [hasSub, Bool.or_eq_true] at h
    rcases h with h | h
    · simp only [List.isPrefixOf, Bool.and_eq_true] at h
      exact hasSub_cons_tail _ _ _ (isPrefixOf_hasSub _ _ h.2)
    · exact hasSub_cons_tail _ _ _ (ih h)

lemma hasSub_split (pat s : List Char) (c : Char) (r : List Char)
    (hne : pat ≠ []) (hc : c ∉ pat)
    (h : hasSub pat (s ++ c :: r) = true) :
    hasSub pat s = true ∨ hasSub pat r = true := by
  induction s with
  | nil =>
    simp only [List.nil_append, hasSub, Bool.or_eq_true] at h
    rcases h with h | h
    · exfalso
      cases pat with
      | nil => exact hne rfl
      | cons p pt =>
        simp only [List.isPrefixOf, Bool.and_eq_true, beq_iff_eq] at h
        exact hc (h.1 ▸ List.mem_cons_self _ _)
    · exact Or.inr h
  | cons a s' ih =>
    simp only [List.cons_append, hasSub, Bool.or_eq_true] at h
    rcases h with h | h
    · rcases Nat.lt_or_ge (a :: s').length pat.length with hlt | hge
      · exact absurd
          (mem_of_prefix_over pat (a :: s') c r (by simpa using h) hlt) hc
      · exact Or.inl (isPrefixOf_hasSub _ _
          (prefix_of_append_of_le pat (a :: s') (c :: r) (by simpa using h) hge))
    · rcases ih h with h' | h'
      · exact Or.inl (hasSub_cons_tail _ _ _ h')
      · exact Or.inr h'

/-! ## Helper lemmas about the scanner -/

lemma findTopic_length (l t r : List Char) (h : findTopic l = some (t, r)) :
    r.length < l.length := by
  induction l generalizing t r with
  | nil => simp [findTopic] at h
  | cons c cs ih =>
    by_cases hcb : c = ']'
    · simp only [findTopic, if_pos hcb, Option.some.injEq, Prod.mk.injEq] at h
      simp [← h.2]
    · by_cases hcn : c = '\n'
      · simp [findTopic, if_neg hcb, if_pos hcn] at h
      · simp only [findTopic, if_neg hcb, if_neg hcn] at h
        cases hft : findTopic cs with
        | none => rw [hft] at h; simp at h
        | some p =>
          rw [hft] at h
          cases p with
          | mk t' r' =>
            simp only [Option.some.injEq, Prod.mk.injEq] at h
            have := ih t' r' hft
            simp only [List.length_cons, ← h.2]
            omega

lemma findTopic_append (topic post : List Char)
    (h : topic.all (fun c => c != ']' && c != '\n') = true) :
    findTopic (topic ++ ']' :: post) = some (topic, post) := by
  induction topic with
  | nil => simp [findTopic]
  | cons t ts ih =>
    simp only [List.all_cons, Bool.and_eq_true, bne_iff_ne, ne_eq] at h
    simp only [List.cons_append, findTopic, if_neg h.1.1, if_neg h.1.2,
      List.append_eq, ih h.2]

lemma dropWhile_append_spaces (ws l : List Char) (h : ws.all isSpace = true) :
    (ws ++ l).dropWhile isSpace = l.dropWhile isSpace := by
  induction ws with
  | nil => rfl
  | cons w ws' ih =>
    simp only [List.all_cons, Bool.and_eq_true] at h
    simp [List.dropWhile_cons, h.1, ih h.2]

lemma dropWhile_topic (topic post : List Char) (h : headNotSpace topic = true) :
    (topic ++ ']' :: post).dropWhile isSpace = topic ++ ']' :: post := by
  cases topic with
  | nil => simp [List.dropWhile_cons, show isSpace ']' = false from rfl]
  | cons t ts =>
    simp only [headNotSpace, Bool.not_eq_true'] at h
    simp [List.dropWhile_cons, h]

lemma scanAux_fuel (f₁ : Nat) : ∀ (f₂ : Nat) (cs : List Char),
    cs.length ≤ f₁ → cs.length ≤ f₂ → scanAux f₁ cs = scanAux f₂ cs := by
  induction f₁ with
  | zero =>
    intro f₂ cs h₁ _
    have hnil : cs = [] := List.length_eq_zero.mp (Nat.le_zero.mp h₁)
    subst hnil; cases f₂ <;> rfl
  | succ a ih =>
    intro f₂ cs h₁ h₂
    cases cs with
    | nil => cases f₂ <;> rfl
    | cons c cs' =>
      cases f₂ with
      | zero => simp at h₂
      | succ b =>
        have ha : cs'.length ≤ a := by
          simp only [List.length_cons] at h₁; omega
        have hb : cs'.length ≤ b := by
          simp only [List.length_cons] at h₂; omega
        simp only [scanAux]
        by_cases hp : markerPat.isPrefixOf (c :: cs') = true
        · rw [if_pos hp, if_pos hp]
          cases hft : findTopic (((c :: cs').drop markerPat.length).dropWhile isSpace) with
          | none => dsimp only; rw [ih b cs' ha hb]
          | some pr =>
            cases pr with
            | mk topic rem =>
              have hrem := findTopic_length _ _ _ hft
              have hdw : (((c :: cs').drop markerPat.length).dropWhile isSpace).length
                  ≤ ((c :: cs').drop markerPat.length).length :=
                (List.dropWhile_sublist isSpace).length_le
              have hdr : ((c :: cs').drop markerPat.length).length
                  = (c :: cs').length - markerPat.length := List.length_drop _ _
              have h15 : markerPat.length = 15 := markerPat_length
              have hc : (c :: cs').length = cs'.length + 1 := by simp
              have hr_a : rem.length ≤ a := by omega
              have hr_b : rem.length ≤ b := by omega
              dsimp only
              rw [ih b rem hr_a hr_b]
        · rw [if_neg hp, if_neg hp, ih b cs' ha hb]

lemma scanAux_no_marker (f : Nat) : ∀ (cs : List Char),
    cs.length ≤ f → hasSub markerPat cs = false → scanAux f cs = cs := by
  induction f with
  | zero => intro cs _ _; cases cs <;> rfl
  | succ a ih =>
    intro cs hf h
    cases cs with
    | nil => rfl
    | cons c cs' =>
      simp only [hasSub, Bool.or_eq_false_iff] at h
      have ha : cs'.length ≤ a := by
        simp only [List.length_cons] at hf; omega
      simp only [scanAux]
      rw [if_neg (by simp [h.1]), ih cs' ha h.2]

/-- Text with no occurrence of the literal `[INTERNAL_LINK:` is returned
unchanged by the substitution pass. -/
lemma subLinks_no_marker (cs : List Char) (h : hasSub markerPat cs = false) :
    subLinks cs = cs :=
  scanAux_no_marker _ _ (le_refl _) h

lemma scanAux_marker_step (ws topic post : List Char)
    (hws : ws.all isSpace = true)
    (htopic : topic.all (fun c => c != ']' && c != '\n') = true)
    (hhead : headNotSpace topic = true) :
    ∀ (pre : List Char) (f : Nat), hasSub markerPat pre = false →
      (pre ++ markerPat ++ ws ++ topic ++ ']' :: post).length ≤ f →
      scanAux f (pre ++ markerPat ++ ws ++ topic ++ ']' :: post)
        = pre ++ '[' :: (topic ++ ']' :: subLinks post) := by
  intro pre
  induction pre with
  | nil =>
    intro f _ hf
    simp only [List.nil_append, List.append_assoc] at hf ⊢
    cases f with
    | zero =>
      exfalso
      simp only [List.length_append, List.length_cons, markerPat_length,
        Nat.le_zero] at hf
      omega
    | succ f' =>
      have hform : markerPat ++ (ws ++ (topic ++ ']' :: post))
          = '[' :: (ilStr ++ (ws ++ (topic ++ ']' :: post))) := by
        rw [markerPat_cons, List.cons_append]
      rw [hform]
      simp only [scanAux]
      rw [← hform]
      rw [if_pos (isPrefixOf_self_append _ _)]
      rw [List.drop_left]
      rw [dropWhile_append_spaces _ _ hws]
      rw [dropWhile_topic _ _ hhead]
      rw [findTopic_append _ _ htopic]
      dsimp only
      have hpost : post.length ≤ f' := by
        simp only [List.length_append, List.length_cons, markerPat_length] at hf
        omega
      rw [scanAux_fuel f' post.length post hpost (le_refl _)]
      rfl
  | cons p pre' ih =>
    intro f hpre hf
    have hpre' : hasSub markerPat pre' = false := by
      simp only [hasSub, Bool.or_eq_false_iff] at hpre
      exact hpre.2
    cases f with
    | zero =>
      exfalso
      simp only [List.cons_append, List.length_cons, Nat.le_zero] at hf
      omega
    | succ f' =>
      have hf' : (pre' ++ markerPat ++ ws ++ topic ++ ']' :: post).length ≤ f' := by
        simp only [List.cons_append, List.length_cons] at hf
        omega
      have hih := ih f' hpre' hf'
      simp only [List.append_assoc] at hih
      simp only [List.cons_append, List.append_assoc]
      simp only [scanAux]
      have hp : ¬ (markerPat.isPrefixOf
          (p :: (pre' ++ (markerPat ++ (ws ++ (topic ++ ']' :: post))))) = true) := by
        intro hcontra
        have hview : p :: (pre' ++ (markerPat ++ (ws ++ (topic ++ ']' :: post))))
            = (p :: pre') ++ '[' :: (ilStr ++ (ws ++ (topic ++ ']' :: post))) := by
          simp [markerPat_cons]
        rw [hview] at hcontra
        rcases Nat.lt_or_ge (p :: pre').length markerPat.length with hlt | hge
        · have hd := prefix_drop_head markerPat (p :: pre') '[' _ hcontra hlt
          have hk1 : 1 ≤ (p :: pre').length := by simp
          have hk2 : (p :: pre').length < 15 := by
            rw [markerPat_length] at hlt; exact hlt
          have hno : ∀ k, k < 15 → 1 ≤ k → (markerPat.drop k).head? ≠ some '[' := by
            decide
          exact hno _ hk2 hk1 hd
        · have hps := prefix_of_append_of_le markerPat (p :: pre') _ hcontra hge
          have hhs : hasSub markerPat (p :: pre') = true := isPrefixOf_hasSub _ _ hps
          rw [hpre] at hhs
          exact absurd hhs (by decide)
      rw [if_neg hp]
      rw [hih]

/-- A single well-formed marker occurrence after a marker-free stretch is
replaced exactly, and the stretch is copied verbatim. -/
lemma subLinks_marker (pre ws topic post : List Char)
    (hpre : hasSub markerPat pre = false)
    (hws : ws.all isSpace = true)
    (htopic : topic.all (fun c => c != ']' && c != '\n') = true)
    (hhead : headNotSpace topic = true) :
    subLinks (pre ++ markerPat ++ ws ++ topic ++ ']' :: post)
      = pre ++ '[' :: (topic ++ ']' :: subLinks post) :=
  scanAux_marker_step ws topic post hws htopic hhead pre _ hpre (le_refl _)

/-- If the bare `INTERNAL_LINK:` does not occur, neither does the bracketed
marker head. -/
lemma no_ilStr_no_marker (cs : List Char) (h : hasSub ilStr cs = false) :
    hasSub markerPat cs = false := by
  cases hm : hasSub markerPat cs with
  | false => rfl
  | true =>
    exfalso
    rw [markerPat_cons] at hm
    rw [hasSub_of_cons_pat _ _ _ hm] at h
    exact absurd h (by decide)

/-- Normalizing a well-formed response leaves no `INTERNAL_LINK:` at all. -/
lemma resp_no_ilStr : ∀ r : Resp, r.wf = true →
    hasSub ilStr (subLinks r.text) = false := by
  intro r
  induction r with
  | last s =>
    intro hwf
    simp only [Resp.wf, Bool.not_eq_true'] at hwf
    rw [Resp.text, subLinks_no_marker s (no_ilStr_no_marker s hwf)]
    exact hwf
  | seg s ws topic rest ih =>
    intro hwf
    simp only [Resp.wf, Bool.and_eq_true, Bool.not_eq_true'] at hwf
    obtain ⟨⟨⟨⟨⟨hs, hws⟩, htopic⟩, hhead⟩, htopil⟩, hrest⟩ := hwf
    rw [Resp.text]
    rw [show s ++ markerPat ++ ws ++ topic ++ ']' :: rest.text
        = s ++ markerPat ++ ws ++ topic ++ ']' :: rest.text from rfl]
    rw [subLinks_marker s ws topic rest.text (no_ilStr_no_marker s hs) hws htopic hhead]
    cases hout : hasSub ilStr (s ++ '[' :: (topic ++ ']' :: subLinks rest.text)) with
    | false => rfl
    | true =>
      exfalso
      have hsplit1 := hasSub_split ilStr s '[' (topic ++ ']' :: subLinks rest.text)
        (by decide) (by decide) hout
      rcases hsplit1 with h1 | h1
      · rw [hs] at h1; exact absurd h1 (by decide)
      · have hsplit2 := hasSub_split ilStr topic ']' (subLinks rest.text)
          (by decide) (by decide) h1
        rcases hsplit2 with h2 | h2
        · rw [htopil] at h2; exact absurd h2 (by decide)
        · rw [ih hrest] at h2; exact absurd h2 (by decide)

/-! ## Helper lemmas about the retry driver -/

lemma retryGo_attempts {α : Type} (body : Nat → Except AppError α) :
    ∀ (n d k : Nat), (retryGo body (n + 1) d k).attempts ≤ k + n + 1 := by
  intro n
  induction n with
  | zero => intro d k; simp [retryGo]
  | succ m ih =>
    intro d k
    show (retryGo body (m + 2) d k).attempts ≤ k + (m + 1) + 1
    cases hb : body k with
    | ok v => simp [retryGo, hb]
    | error e =>
      simp only [retryGo, hb]
      have := ih (d * 2) (k + 1)
      omega

lemma retryGo_ok_body {α : Type} (body : Nat → Except AppError α) :
    ∀ (n d k : Nat) (x : α), (retryGo body n d k).result = .ok x →
      ∃ j, body j = .ok x := by
  intro n
  induction n with
  | zero =>
    intro d k x h
    simp only [retryGo] at h
    exact ⟨k, h⟩
  | succ m ih =>
    intro d k x h
    cases m with
    | zero =>
      simp only [retryGo] at h
      exact ⟨k, h⟩
    | succ m' =>
      cases hb : body k with
      | ok v =>
        simp only [retryGo, hb] at h
        exact ⟨k, by rw [hb, h]⟩
      | error e =>
        simp only [retryGo, hb] at h
        exact ih (d * 2) (k + 1) x h

/-! ## Claim theorems -/

/-- C1 (counterexample): the Link Normalizer is not idempotent.  On the
nested-marker text `[INTERNAL_LINK: [INTERNAL_LINK: X]]` one pass yields
`[[INTERNAL_LINK: X]]` (the inner marker survives because it overlaps the
replaced span), and a second pass rewrites that to `[[X]]`. -/
theorem C1_counterexample :
    process_internal_links (process_internal_links "[INTERNAL_LINK: [INTERNAL_LINK: X]]")
      ≠ process_internal_links "[INTERNAL_LINK: [INTERNAL_LINK: X]]" := by
  decide

/-- C1 (amended): the Link Normalizer is idempotent on every text whose
normalization contains no residual `[INTERNAL_LINK:` substring, i.e.
whenever the first pass fully removes the marker prefix the second pass is
the identity. -/
theorem C1_amended (t : String)
    (h : hasSubstr "[INTERNAL_LINK:" (process_internal_links t) = false) :
    process_internal_links (process_internal_links t) = process_internal_links t := by
  obtain ⟨l⟩ := t
  have hcore : hasSub markerPat (subLinks l) = false := h
  show (⟨subLinks (subLinks l)⟩ : String) = ⟨subLinks l⟩
  rw [subLinks_no_marker _ hcore]

/-- C1 witness: a concrete instance of the amended idempotence. -/
theorem C1_amended_witness :
    hasSubstr "[INTERNAL_LINK:" (process_internal_links "a [INTERNAL_LINK: X] b") = false
      ∧ process_internal_links (process_internal_links "a [INTERNAL_LINK: X] b")
          = process_internal_links "a [INTERNAL_LINK: X] b" :=
  ⟨by decide, C1_amended "a [INTERNAL_LINK: X] b" (by decide)⟩

/-- C2 (counterexample): a raw response consisting of a nested marker
defeats the normalizer: `generate_blog_content` returns markdown that
still contains the literal substring `INTERNAL_LINK:`. -/
theorem C2_counterexample :
    (generate_blog_content
        (fun _ => Except.ok "[INTERNAL_LINK: [INTERNAL_LINK: X]]")).result
      = Except.ok "[[INTERNAL_LINK: X]]"
    ∧ hasSubstr "INTERNAL_LINK:" "[[INTERNAL_LINK: X]]" = true := by
  exact ⟨by decide, by decide⟩

/-- C2 (amended): for every raw response that decomposes into
marker-free stretches and well-formed, non-nested markers, the markdown
returned by `generate_blog_content` contains no literal `INTERNAL_LINK:`
substring. -/
theorem C2_amended (r : Resp) (api : Nat → Except String String)
    (hwf : r.wf = true) (h0 : api 0 = Except.ok ⟨r.text⟩) :
    (generate_blog_content api).result = Except.ok (process_internal_links ⟨r.text⟩)
      ∧ hasSubstr "INTERNAL_LINK:" (process_internal_links ⟨r.text⟩) = false := by
  constructor
  · simp [generate_blog_content, retryGo, genBody, h0]
  · exact resp_no_ilStr r hwf

/-- C2 witness: a concrete well-formed response through the generator. -/
theorem C2_amended_witness :
    (generate_blog_content (fun _ => Except.ok
        ⟨(Resp.seg "a ".toList " ".toList "X".toList (Resp.last " b".toList)).text⟩)).result
      = Except.ok (process_internal_links
        ⟨(Resp.seg "a ".toList " ".toList "X".toList (Resp.last " b".toList)).text⟩)
    ∧ hasSubstr "INTERNAL_LINK:" (process_internal_links
        ⟨(Resp.seg "a ".toList " ".toList "X".toList (Resp.last " b".toList)).text⟩) = false :=
  C2_amended _ _ (by decide) rfl

/-- C3 (counterexample): the code's normalizer and the spec's literal
pattern disagree: `[INTERNAL_LINK:X]` (no space after the colon) contains
no occurrence of the spec's literal pattern `[INTERNAL_LINK: <topic>]`, so
the spec's normalizer leaves it unchanged, yet the code replaces it (the
regex allows any amount of whitespace, including none). -/
theorem C3_counterexample :
    process_internal_links "[INTERNAL_LINK:X]" = "[X]"
    ∧ normalize_spec "[INTERNAL_LINK:X]" = "[INTERNAL_LINK:X]"
    ∧ process_internal_links "[INTERNAL_LINK:X]" ≠ normalize_spec "[INTERNAL_LINK:X]" :=
  ⟨by decide, by decide, by decide⟩

/-- C3 (amended): `process_internal_links` replaces each occurrence of
`[INTERNAL_LINK:` followed by an arbitrary whitespace run and then a topic
(the shortest run of non-newline characters up to the closing bracket)
with `[<topic>]`, leaving every character outside the matched spans
unchanged; a text with no `[INTERNAL_LINK:` substring is returned equal to
itself, and `normalize("a [INTERNAL_LINK: X] b") = "a [X] b"`. -/
theorem C3_amended :
    (∀ t : String, hasSubstr "[INTERNAL_LINK:" t = false →
      process_internal_links t = t)
    ∧ process_internal_links "a [INTERNAL_LINK: X] b" = "a [X] b"
    ∧ (∀ pre ws topic post : List Char,
        hasSub markerPat pre = false →
        ws.all isSpace = true →
        topic.all (fun c => c != ']' && c != '\n') = true →
        headNotSpace topic = true →
        subLinks (pre ++ markerPat ++ ws ++ topic ++ ']' :: post)
          = pre ++ '[' :: (topic ++ ']' :: subLinks post)) := by
  refine ⟨?_, by decide, ?_⟩
  · intro t h
    obtain ⟨l⟩ := t
    have h' : hasSub markerPat l = false := h
    show (⟨subLinks l⟩ : String) = ⟨l⟩
    rw [subLinks_no_marker l h']
  · exact fun pre ws topic post h1 h2 h3 h4 =>
      subLinks_marker pre ws topic post h1 h2 h3 h4

/-- C3 witness: concrete instances of the amended description. -/
theorem C3_amended_witness :
    process_internal_links "no markers here" = "no markers here"
    ∧ subLinks ("x ".toList ++ markerPat ++ [' '] ++ ['T'] ++ ']' :: " y".toList)
        = "x ".toList ++ '[' :: (['T'] ++ ']' :: subLinks " y".toList) :=
  ⟨C3_amended.1 "no markers here" (by decide),
   C3_amended.2.2 "x ".toList [' '] ['T'] " y".toList
     (by decide) (by decide) (by decide) (by decide)⟩

/-- C4: `generate_blog_content` makes at most 3 attempts with backoff
delays 2 then 4; any exception at the call boundary triggers a retry; a
success on any attempt returns the link-normalized response (in
particular, an API that raises twice then succeeds yields the result after
exactly 3 attempts); and when all 3 attempts raise, the error propagated
is the `APIError` (the spec's GenerationError) embedding the message of
the last underlying exception. -/
theorem C4_retry_policy :
    (∀ api : Nat → Except String String, (generate_blog_content api).attempts ≤ 3)
    ∧ (∀ (api : Nat → Except String String) (raw : String),
        api 0 = Except.ok raw →
        generate_blog_content api =
          { result := Except.ok (process_internal_links raw)
            attempts := 1, delays := [] })
    ∧ (∀ (api : Nat → Except String String) (e₀ raw : String),
        api 0 = Except.error e₀ → api 1 = Except.ok raw →
        generate_blog_content api =
          { result := Except.ok (process_internal_links raw)
            attempts := 2, delays := [2] })
    ∧ (∀ (api : Nat → Except String String) (e₀ e₁ raw : String),
        api 0 = Except.error e₀ → api 1 = Except.error e₁ →
        api 2 = Except.ok raw →
        generate_blog_content api =
          { result := Except.ok (process_internal_links raw)
            attempts := 3, delays := [2, 4] })
    ∧ (∀ (api : Nat → Except String String) (errs : Nat → String),
        (∀ k, k < 3 → api k = Except.error (errs k)) →
        generate_blog_content api =
          { result := Except.error
              (apiError ("Error generating blog content: " ++ errs 2))
            attempts := 3, delays := [2, 4] }) := by
  refine ⟨?_, ?_, ?_, ?_, ?_⟩
  · intro api
    have h := retryGo_attempts (genBody api) 2 2 0
    simpa [generate_blog_content] using h
  · intro api raw h0
    simp [generate_blog_content, retryGo, genBody, h0]
  · intro api e₀ raw h0 h1
    simp [generate_blog_content, retryGo, genBody, h0, h1]
  · intro api e₀ e₁ raw h0 h1 h2
    simp [generate_blog_content, retryGo, genBody, h0, h1, h2]
  · intro api errs h
    have h0 := h 0 (by omega)
    have h1 := h 1 (by omega)
    have h2 := h 2 (by omega)
    simp [generate_blog_content, retryGo, genBody, h0, h1, h2]

/-- C4 witness: an API that raises twice then succeeds yields the
normalized result after exactly 3 attempts with delays 2 and 4. -/
theorem C4_retry_policy_witness :
    generate_blog_content
        (fun k => if k < 2 then Except.error "boom"
          else Except.ok "t [INTERNAL_LINK: X]")
      = { result := Except.ok (process_internal_links "t [INTERNAL_LINK: X]")
          attempts := 3, delays := [2, 4] } :=
  C4_retry_policy.2.2.2.1
    (fun k => if k < 2 then Except.error "boom"
      else Except.ok "t [INTERNAL_LINK: X]")
    "boom" "boom" "t [INTERNAL_LINK: X]" rfl rfl rfl

/-- C5: with valid credentials and an image, `save_to_wordpress` tries the
media upload at most 3 times; when all 3 attempts fail it raises the
upload-specific error (wrapped in the exporter's `APIError`) and the
post-creation call is never issued; when one of the first 3 attempts
succeeds, the uploaded media id becomes the post's featured image and the
draft post creation call is then issued. -/
theorem C5_wordpress_upload :
    (∀ (u n p : Option String) (heap : List PILImage) (ref : Nat)
        (upload : Nat → Except String Nat) (newPost : Except String Nat),
        (save_to_wordpress u n p heap (some ref) upload newPost).1.uploadAttempts ≤ 3)
    ∧ (∀ (url user pass : String) (heap : List PILImage) (ref : Nat)
        (upload : Nat → Except String Nat) (newPost : Except String Nat)
        (e₀ e₁ e₂ : String),
        url ≠ "" → user ≠ "" → pass ≠ "" →
        upload 0 = Except.error e₀ → upload 1 = Except.error e₁ →
        upload 2 = Except.error e₂ →
        (save_to_wordpress (some url) (some user) (some pass)
            heap (some ref) upload newPost).1
          = { result := Except.error (apiError ("Error saving to WordPress: "
                ++ ("Error uploading image to WordPress: " ++ e₂)))
              uploadAttempts := 3, postCalls := 0, thumbnail := none
              postStatus := none })
    ∧ (∀ (url user pass : String) (heap : List PILImage) (ref : Nat)
        (upload : Nat → Except String Nat) (newPost : Except String Nat)
        (mid : Nat),
        url ≠ "" → user ≠ "" → pass ≠ "" →
        upload 0 = Except.ok mid →
        (save_to_wordpress (some url) (some user) (some pass)
            heap (some ref) upload newPost).1.thumbnail = some mid
        ∧ (save_to_wordpress (some url) (some user) (some pass)
            heap (some ref) upload newPost).1.postCalls = 1
        ∧ (save_to_wordpress (some url) (some user) (some pass)
            heap (some ref) upload newPost).1.uploadAttempts = 1
        ∧ (save_to_wordpress (some url) (some user) (some pass)
            heap (some ref) upload newPost).1.postStatus = some "draft")
    ∧ (∀ (url user pass : String) (heap : List PILImage) (ref : Nat)
        (upload : Nat → Except String Nat) (newPost : Except String Nat)
        (e₀ : String) (mid : Nat),
        url ≠ "" → user ≠ "" → pass ≠ "" →
        upload 0 = Except.error e₀ → upload 1 = Except.ok mid →
        (save_to_wordpress (some url) (some user) (some pass)
            heap (some ref) upload newPost).1.thumbnail = some mid
        ∧ (save_to_wordpress (some url) (some user) (some pass)
            heap (some ref) upload newPost).1.postCalls = 1
        ∧ (save_to_wordpress (some url) (some user) (some pass)
            heap (some ref) upload newPost).1.uploadAttempts = 2
        ∧ (save_to_wordpress (some url) (some user) (some pass)
            heap (some ref) upload newPost).1.postStatus = some "draft")
    ∧ (∀ (url user pass : String) (heap : List PILImage) (ref : Nat)
        (upload : Nat → Except String Nat) (newPost : Except String Nat)
        (e₀ e₁ : String) (mid : Nat),
        url ≠ "" → user ≠ "" → pass ≠ "" →
        upload 0 = Except.error e₀ → upload 1 = Except.error e₁ →
        upload 2 = Except.ok mid →
        (save_to_wordpress (some url) (some user) (some pass)
            heap (some ref) upload newPost).1.thumbnail = some mid
        ∧ (save_to_wordpress (some url) (some user) (some pass)
            heap (some ref) upload newPost).1.postCalls = 1
        ∧ (save_to_wordpress (some url) (some user) (some pass)
            heap (some ref) upload newPost).1.uploadAttempts = 3
        ∧ (save_to_wordpress (some url) (some user) (some pass)
            heap (some ref) upload newPost).1.postStatus = some "draft") := by
  refine ⟨?_, ?_, ?_, ?_, ?_⟩
  · intro u n p heap ref upload newPost
    rcases h0 : upload 0 with e₀ | m0 <;>
      rcases h1 : upload 1 with e₁ | m1 <;>
        rcases h2 : upload 2 with e₂ | m2 <;>
          cases newPost <;>
            (simp only [save_to_wordpress]
             split <;> simp [uploadLoop, h0, h1, h2])
  · intro url user pass heap ref upload newPost e₀ e₁ e₂ hu hn hp h0 h1 h2
    simp [save_to_wordpress, falsy, hu, hn, hp, uploadLoop, h0, h1, h2]
  · intro url user pass heap ref upload newPost mid hu hn hp h0
    cases newPost <;>
      simp [save_to_wordpress, falsy, hu, hn, hp, uploadLoop, h0]
  · intro url user pass heap ref upload newPost e₀ mid hu hn hp h0 h1
    cases newPost <;>
      simp [save_to_wordpress, falsy, hu, hn, hp, uploadLoop, h0, h1]
  · intro url user pass heap ref upload newPost e₀ e₁ mid hu hn hp h0 h1 h2
    cases newPost <;>
      simp [save_to_wordpress, falsy, hu, hn, hp, uploadLoop, h0, h1, h2]

/-- C5 witness: an upload endpoint that fails twice then succeeds attaches
the media id and issues the draft post creation. -/
theorem C5_wordpress_upload_witness :
    (save_to_wordpress (some "https://blog.example") (some "admin") (some "pw")
        [⟨2000, 1200⟩] (some 0)
        (fun k => if k < 2 then Except.error "timeout" else Except.ok 77)
        (Except.ok 5)).1.thumbnail = some 77
    ∧ (save_to_wordpress (some "https://blog.example") (some "admin") (some "pw")
        [⟨2000, 1200⟩] (some 0)
        (fun k => if k < 2 then Except.error "timeout" else Except.ok 77)
        (Except.ok 5)).1.postCalls = 1
    ∧ (save_to_wordpress (some "https://blog.example") (some "admin") (some "pw")
        [⟨2000, 1200⟩] (some 0)
        (fun k => if k < 2 then Except.error "timeout" else Except.ok 77)
        (Except.ok 5)).1.uploadAttempts = 3
    ∧ (save_to_wordpress (some "https://blog.example") (some "admin") (some "pw")
        [⟨2000, 1200⟩] (some 0)
        (fun k => if k < 2 then Except.error "timeout" else Except.ok 77)
        (Except.ok 5)).1.postStatus = some "draft" :=
  C5_wordpress_upload.2.2.2.2 "https://blog.example" "admin" "pw"
    [⟨2000, 1200⟩] 0
    (fun k => if k < 2 then Except.error "timeout" else Except.ok 77)
    (Except.ok 5) "timeout" "timeout" 77
    (by decide) (by decide) (by decide) rfl rfl rfl

/-- C6: the credential resolvers treat a placeholder sentinel in the
secrets layer identically to an absent value; the environment fallback is
consulted only when the secrets layer yields nothing usable (absent,
placeholder, or empty); and a usable (non-placeholder, non-empty) secrets
value is returned with the environment left unconsulted. -/
theorem C6_credential_resolution :
    (∀ env : Option String,
        get_openai_api_key (some "YOUR_OPENAI_API_KEY") env
          = get_openai_api_key none env)
    ∧ (∀ (rawD envK envD : Option String),
        get_notion_credentials (some (some "YOUR_NOTION_API_KEY", rawD)) envK envD
          = get_notion_credentials (some (none, rawD)) envK envD)
    ∧ (∀ (rawK envK envD : Option String),
        get_notion_credentials (some (rawK, some "YOUR_NOTION_DATABASE_ID")) envK envD
          = get_notion_credentials (some (rawK, none)) envK envD)
    ∧ (∀ (secrets env : Option String),
        (get_openai_api_key secrets env).2 = true →
        secrets = none ∨ secrets = some "YOUR_OPENAI_API_KEY")
    ∧ (∀ (raw : Option String) (ph : String) (env : Option String),
        (secretOrEnv raw ph env).2 = true →
        raw = none ∨ raw = some ph ∨ raw = some "")
    ∧ (∀ (v : String) (env : Option String), v ≠ "YOUR_OPENAI_API_KEY" →
        get_openai_api_key (some v) env = (some v, false))
    ∧ (∀ (v ph : String) (env : Option String), v ≠ ph → v ≠ "" →
        secretOrEnv (some v) ph env = (some v, false))
    ∧ (∀ (secrets : Option (Option String × Option String))
        (envK envD : Option String),
        get_notion_credentials secrets envK envD
          = (secretOrEnv (match secrets with | some (k, _) => k | none => none)
               "YOUR_NOTION_API_KEY" envK,
             secretOrEnv (match secrets with | some (_, d) => d | none => none)
               "YOUR_NOTION_DATABASE_ID" envD)) := by
  refine ⟨?_, ?_, ?_, ?_, ?_, ?_, ?_, ?_⟩
  · intro env; simp [get_openai_api_key]
  · intro rawD envK envD; simp [get_notion_credentials, secretOrEnv]
  · intro rawK envK envD; simp [get_notion_credentials, secretOrEnv]
  · intro secrets env h
    cases secrets with
    | none => exact Or.inl rfl
    | some k =>
      by_cases hk : k = "YOUR_OPENAI_API_KEY"
      · exact Or.inr (by rw [hk])
      · simp [get_openai_api_key, hk] at h
  · intro raw ph env h
    cases raw with
    | none => exact Or.inl rfl
    | some s =>
      by_cases hs : s = ph
      · exact Or.inr (Or.inl (by rw [hs]))
      · by_cases hs2 : s = ""
        · exact Or.inr (Or.inr (by rw [hs2]))
        · simp [secretOrEnv, hs, hs2] at h
  · intro v env hv; simp [get_openai_api_key, hv]
  · intro v ph env hv hv2; simp [secretOrEnv, hv, hv2]
  · intro secrets envK envD
    rcases secrets with _ | ⟨k, d⟩ <;> rfl

/-- C6 witness: a usable secrets value is returned without consulting the
environment, both for the flat resolver and the per-field resolver. -/
theorem C6_credential_resolution_witness :
    get_openai_api_key (some "sk-live-123") (some "sk-env") = (some "sk-live-123", false)
    ∧ secretOrEnv (some "secret_abc") "YOUR_NOTION_API_KEY" (some "env_abc")
        = (some "secret_abc", false)
    ∧ (get_openai_api_key (some "YOUR_OPENAI_API_KEY") (some "sk-env")
        = get_openai_api_key none (some "sk-env")) :=
  ⟨C6_credential_resolution.2.2.2.2.2.1 "sk-live-123" (some "sk-env") (by decide),
   C6_credential_resolution.2.2.2.2.2.2.1 "secret_abc" "YOUR_NOTION_API_KEY"
     (some "env_abc") (by decide) (by decide),
   C6_credential_resolution.1 (some "sk-env")⟩

/-- C7 (counterexample): the image request is not square: `generate_image`
asks for size `1792x1024` (a landscape resolution). -/
theorem C7_counterexample :
    (imageRequest "p").size = "1792x1024"
      ∧ isSquareSize (imageRequest "p").size = false :=
  ⟨rfl, by decide⟩

/-- C7 (amended): every `generate_image` request asks for exactly one
image (n = 1) at standard quality and the fixed resolution `1792x1024`,
which is not square. -/
theorem C7_amended (prompt : String) :
    (imageRequest prompt).n = 1
      ∧ (imageRequest prompt).quality = "standard"
      ∧ (imageRequest prompt).size = "1792x1024"
      ∧ isSquareSize (imageRequest prompt).size = false :=
  ⟨rfl, rfl, rfl, (by decide : isSquareSize "1792x1024" = false)⟩

/-- C8 (counterexample): the exporter's configuration failure and its
network failure carry the same exception kind (the single `APIError`
class) and differ only in message text, so the two failure classes are
not distinguishable by kind. -/
theorem C8_counterexample :
    errKind (save_to_wordpress none none none [] none
        (fun _ => Except.error "x") (Except.error "net down")).1.result
      = errKind (save_to_wordpress (some "https://b.example") (some "admin")
          (some "pw") [] none (fun _ => Except.error "x")
          (Except.error "net down")).1.result
    ∧ errKind (save_to_wordpress none none none [] none
        (fun _ => Except.error "x") (Except.error "net down")).1.result
      = some "APIError"
    ∧ (save_to_wordpress none none none [] none
        (fun _ => Except.error "x") (Except.error "net down")).1.result
      ≠ (save_to_wordpress (some "https://b.example") (some "admin") (some "pw")
          [] none (fun _ => Except.error "x") (Except.error "net down")).1.result :=
  ⟨by decide, by decide, by decide⟩

/-- C8 (amended): an exporter invoked with absent (or placeholder-resolved)
credentials fails fast - no upload attempt, no post-creation call - with
the credentials-not-found message; but every error the exporter raises,
configuration and network alike, carries the same single `APIError` kind,
so the failure classes are distinguishable only by message text.
Placeholder WordPress secrets with no environment fallback resolve to
absent credentials. -/
theorem C8_amended :
    (∀ (heap : List PILImage) (imgRef : Option Nat)
        (upload : Nat → Except String Nat) (newPost : Except String Nat),
        save_to_wordpress none none none heap imgRef upload newPost
          = ({ result := Except.error (apiError ("Error saving to WordPress: "
                ++ "WordPress credentials not found in Streamlit secrets or environment variables"))
               uploadAttempts := 0, postCalls := 0, thumbnail := none
               postStatus := none }, heap))
    ∧ (∀ (u n p : Option String) (heap : List PILImage) (imgRef : Option Nat)
        (upload : Nat → Except String Nat) (newPost : Except String Nat)
        (e : AppError),
        (save_to_wordpress u n p heap imgRef upload newPost).1.result
          = Except.error e →
        e.kind = "APIError")
    ∧ get_wordpress_credentials
        (some (some "YOUR_WORDPRESS_URL", some "YOUR_WORDPRESS_USERNAME",
          some "YOUR_WORDPRESS_APPLICATION_PASSWORD")) none none none
        = (none, none, none) := by
  refine ⟨?_, ?_, ?_⟩
  · intro heap imgRef upload newPost
    rfl
  · intro u n p heap imgRef upload newPost e h
    simp only [save_to_wordpress] at h
    split at h
    · try dsimp only at h
      injection h with h2
      rw [← h2]
      rfl
    · rcases imgRef with _ | ref
      · cases newPost <;> try dsimp only at h
        · injection h with h2
          rw [← h2]
          rfl
        · exact Except.noConfusion h
      · rcases h0 : uploadLoop upload with ⟨r, m⟩
        rw [h0] at h
        cases r <;> cases newPost <;> try dsimp only at h
        all_goals
          first
            | (injection h with h2; rw [← h2]; rfl)
            | exact Except.noConfusion h
  · rfl

/-- C8 witness: the error raised for a network fault carries the
`APIError` kind. -/
theorem C8_amended_witness :
    (apiError "Error saving to WordPress: net down").kind = "APIError" :=
  C8_amended.2.1 (some "https://b.example") (some "admin") (some "pw") [] none
    (fun _ => Except.error "x") (Except.error "net down")
    (apiError "Error saving to WordPress: net down") (by decide)

/-- C9: `save_to_wordpress` works on a copy of the supplied image: the
caller's image cell in the heap is unchanged after the call, whether the
export succeeds or fails (downsizing mutates only the freshly allocated
copy). -/
theorem C9_image_copy (u n p : Option String) (heap : List PILImage) (ref : Nat)
    (upload : Nat → Except String Nat) (newPost : Except String Nat)
    (href : ref < heap.length) :
    ((save_to_wordpress u n p heap (some ref) upload newPost).2)[ref]?
      = heap[ref]? := by
  simp only [save_to_wordpress]
  split
  · rfl
  · have hne : heap.length ≠ ref := by omega
    rcases h0 : uploadLoop upload with ⟨r, m⟩
    cases r <;> cases newPost <;>
      simp [List.getElem?_set_ne hne, List.getElem?_append_left href]

/-- C9 witness: a concrete oversized image survives a successful export
unchanged at the caller's reference. -/
theorem C9_image_copy_witness :
    ((save_to_wordpress (some "https://b.example") (some "admin") (some "pw")
        [⟨2000, 1200⟩] (some 0) (fun _ => Except.ok 7) (Except.ok 5)).2)[0]?
      = [(⟨2000, 1200⟩ : PILImage)][0]? :=
  C9_image_copy (some "https://b.example") (some "admin") (some "pw")
    [⟨2000, 1200⟩] 0 (fun _ => Except.ok 7) (Except.ok 5) (by decide)

/-- A single attempt of `generate_image` either raises or returns a decoded
image: the `Option` in its return type is never `none`. -/
lemma imgBody_ok (prompt : String) (api : ImageRequest → Nat → Except String String)
    (download : String → Nat × List Nat) (decode : List Nat → Except String PILImage)
    (k : Nat) (x : Option PILImage)
    (h : imgBody prompt api download decode k = Except.ok x) :
    ∃ img, x = some img := by
  unfold imgBody at h
  split at h
  · exact Except.noConfusion h
  · rename_i xr url heq
    rcases hdl : download url with ⟨status, bytes⟩
    try rw [hdl] at h
    try dsimp only at h
    split at h
    · split at h
      · injection h with h2
        exact ⟨_, h2.symm⟩
      · exact Except.noConfusion h
    · exact Except.noConfusion h

/-- C10: `generate_image` never returns `None` despite its
`Optional[Image.Image]` annotation: every successful result carries a
decoded image, so the call site's missing-image check after a successful
call is unreachable. -/
theorem C10_never_none (prompt : String)
    (api : ImageRequest → Nat → Except String String)
    (download : String → Nat × List Nat)
    (decode : List Nat → Except String PILImage) (x : Option PILImage)
    (h : (generate_image prompt api download decode).result = Except.ok x) :
    ∃ img, x = some img := by
  have h' : (retryGo (imgBody prompt api download decode) 3 2 0).result
      = Except.ok x := h
  obtain ⟨j, hj⟩ := retryGo_ok_body (imgBody prompt api download decode) 3 2 0 x h'
  exact imgBody_ok prompt api download decode j x hj

/-- C10 witness: a concrete successful call yields a decoded image. -/
theorem C10_never_none_witness :
    ∃ img, (some (PILImage.mk 1 1) : Option PILImage) = some img :=
  C10_never_none "p" (fun _ _ => Except.ok "u") (fun _ => (200, []))
    (fun _ => Except.ok ⟨1, 1⟩) (some ⟨1, 1⟩) (by decide)
